import Mathlib

/-!
Shallow embedding of `cmd/zoekt-sourcegraph-indexserver/debug.go` from the zoekt
repository. Each debug subcommand's `Exec` closure is embedded as a pure function
from its inputs (parsed flag values, positional arguments, and oracles standing
for the external collaborators it calls) to the ordered list of side effects it
performs together with the error value it returns. External collaborators that
live outside the embedded file (`newServer`/`forceIndex`, `printShardStats`,
`printMetaData`, `doMerge`, the HTTP client) are represented by oracle parameters
or, where a claim is about their behaviour, by definitions modelled from the
specification and marked as such in their doc comments.
-/

namespace ZoektDebug

/-- Errors returned by the Go code, abstracted to their message. -/
inductive GoError where
  | msg (s : String)
deriving DecidableEq, Repr

/-- The observable side effects the debug subcommands can perform, in order.
`newServer` is the construction of a server; `forceIndex` carries the uint32
repository id (as a `Nat` in `[0, 2^32)`); `logLine` is a `log.Println`;
`printShardStats`/`printMetaData` read a shard file; `setDebugLogger` is the
assignment to the global `debug` logger; `doMerge` carries the directory, the
target size in bytes (as a wrapped int64) and the simulate flag; `httpRequest`
carries the HTTP method and URL; `writeStdout` is the `io.Copy` to stdout. -/
inductive Effect where
  | newServer
  | forceIndex (id : Nat)
  | logLine (msg : String)
  | printShardStats (path : String)
  | printMetaData (path : String)
  | setDebugLogger
  | doMerge (dir : String) (targetSizeBytes : Int) (simulate : Bool)
  | httpRequest (method : String) (url : String)
  | writeStdout (body : String)
deriving DecidableEq, Repr

/-- Model of Go `strconv.Atoi` on a 64-bit platform (standard library, external
to the repository): an optional leading `+` or `-` sign followed by at least one
ASCII digit, rejecting anything else, and rejecting values outside the int64
range `[-2^63, 2^63 - 1]` (Go returns a non-nil error in both cases, which is
all the embedded code inspects). -/
def goAtoi (s : String) : Except GoError Int :=
  let p : Bool × List Char :=
    match s.data with
    | '-' :: rest => (true, rest)
    | '+' :: rest => (false, rest)
    | cs => (false, cs)
  if p.2.isEmpty || !(p.2.all Char.isDigit) then
    Except.error (GoError.msg ("invalid syntax: " ++ s))
  else
    let m : Nat := p.2.foldl (fun acc c => 10 * acc + (c.toNat - 48)) 0
    let v : Int := if p.1 then -(m : Int) else (m : Int)
    if v < -(2 ^ 63) ∨ (2 ^ 63 - 1 : Int) < v then
      Except.error (GoError.msg ("value out of range: " ++ s))
    else
      Except.ok v

/-- Go conversion `uint32(id)` applied to an `int`: reduction modulo `2^32`
with wrap-around for negative values. -/
def intToUInt32 (i : Int) : Nat := (i % (2 ^ 32 : Int)).toNat

/-- Go two's-complement int64 wrap-around, mapping any integer into
`[-2^63, 2^63)` congruently modulo `2^64` (Go multiplication of int64 wraps). -/
def int64wrap (i : Int) : Int := (i + 2 ^ 63) % 2 ^ 64 - 2 ^ 63

/-- Oracle for the server constructed by `newServer(conf)`: whether construction
succeeds, and the `(msg, err)` pair returned by `s.forceIndex(id)` for a given
uint32 repository id. -/
structure ServerOracle where
  newServer : Except GoError Unit
  forceIndex : Nat → String × Option GoError

/-- Embedding of the `Exec` closure of `debugIndex` (debug.go): reject empty
args with "missing repository ID", construct the server, parse `args[0]` with
`strconv.Atoi`, convert to uint32, call `forceIndex`, log its message
unconditionally, then return its error. -/
def debugIndexExec (o : ServerOracle) (args : List String) : List Effect × Option GoError :=
  match args with
  | [] => ([], some (GoError.msg "missing repository ID"))
  | a :: _ =>
    match o.newServer with
    | Except.error e => ([Effect.newServer], some e)
    | Except.ok _ =>
      match goAtoi a with
      | Except.error e => ([Effect.newServer], some e)
      | Except.ok id =>
        let id32 := intToUInt32 id
        let r := o.forceIndex id32
        ([Effect.newServer, Effect.forceIndex id32, Effect.logLine r.1], r.2)

/-- Embedding of the `Exec` closure of `debugTrigrams` (debug.go): reject empty
args with "missing path to shard", otherwise call `printShardStats(args[0])`
and return its result (the oracle stands for `printShardStats`, defined
elsewhere in the repository). -/
def debugTrigramsExec (printShardStatsResult : String → Option GoError)
    (args : List String) : List Effect × Option GoError :=
  match args with
  | [] => ([], some (GoError.msg "missing path to shard"))
  | a :: _ => ([Effect.printShardStats a], printShardStatsResult a)

/-- Embedding of the `Exec` closure of `debugMeta` (debug.go): reject empty
args with "missing path to shard", otherwise call `printMetaData(args[0])`
and return its result. -/
def debugMetaExec (printMetaDataResult : String → Option GoError)
    (args : List String) : List Effect × Option GoError :=
  match args with
  | [] => ([], some (GoError.msg "missing path to shard"))
  | a :: _ => ([Effect.printMetaData a], printMetaDataResult a)

/-- The parsed flag values of the `debug merge` subcommand: `-simulate`,
`-merge_target_size` (an int64, in MiB), `-index`, `-debug`. -/
structure MergeFlags where
  simulate : Bool
  targetSize : Int
  index : String
  dbg : Bool
deriving DecidableEq, Repr

/-- Modelled from the spec: `getEnvWithDefaultInt64("SRC_TARGET_SIZE", 2000)`
(defined elsewhere in the repository, not under src/) yields the environment
value when the variable is set and parses, else the default 2000. The
environment lookup is abstracted to an `Option Int`. -/
def defaultTargetSizeMiB (srcTargetSize : Option Int) : Int := srcTargetSize.getD 2000

/-- The default flag values of `debug merge` as registered in `debugMerge`
(debug.go): `simulate` defaults to false, `merge_target_size` to
`getEnvWithDefaultInt64("SRC_TARGET_SIZE", 2000)`, `index` to
`getEnvWithDefaultString("DATA_DIR", build.DefaultDir)` (abstracted to an
`Option String` lookup and the library constant), `debug` to
`srcLogLevelIsDebug()` (abstracted to a boolean parameter). -/
def defaultMergeFlags (srcTargetSize : Option Int) (dataDir : Option String)
    (buildDefaultDir : String) (logLevelIsDebug : Bool) : MergeFlags :=
  { simulate := false
    targetSize := defaultTargetSizeMiB srcTargetSize
    index := dataDir.getD buildDefaultDir
    dbg := logLevelIsDebug }

/-- Embedding of the `Exec` closure of `debugMerge` (debug.go): when the debug
flag is set, install the debug logger; then call
`doMerge(*index, *targetSize*1024*1024, *simulate)` and return its error. The
positional arguments are not inspected by the closure. The oracle stands for
`doMerge` (defined elsewhere in the repository). -/
def debugMergeExec (fl : MergeFlags) (doMergeResult : String → Int → Bool → Option GoError)
    (args : List String) : List Effect × Option GoError :=
  let ts := int64wrap (fl.targetSize * 1048576)
  ((if fl.dbg then [Effect.setDebugLogger] else []) ++ [Effect.doMerge fl.index ts fl.simulate],
   doMergeResult fl.index ts fl.simulate)

/-- The first `doMerge` effect of a trace, projected to its
(directory, target size in bytes, simulate) arguments. -/
def mergeCallOf : List Effect → Option (String × Int × Bool)
  | [] => none
  | Effect.doMerge d ts sim :: _ => some (d, ts, sim)
  | _ :: rest => mergeCallOf rest

/-- A shard on disk, abstracted to its path and byte size (the `ShardMeta` of
the spec restricted to what merge planning needs). -/
structure Shard where
  path : String
  size : Int
deriving DecidableEq, Repr

/-- First-fit insertion of a shard into the open bins (each bin carries its
accumulated size): the shard goes into the first bin whose accumulated size
plus the shard's size stays within the target, else a new bin is opened. -/
def addToBins (targetSize : Int) (s : Shard) :
    List (List Shard × Int) → List (List Shard × Int)
  | [] => [([s], s.size)]
  | (b, sz) :: rest =>
    if sz + s.size ≤ targetSize then (b ++ [s], sz + s.size) :: rest
    else (b, sz) :: addToBins targetSize s rest

/-- Modelled from the spec: the merge engine's `Plan` (greedy first-fit
bin-packing in the stable input order; a shard already at or above the target
size is placed alone in its own bin). The real planner lives in the
repository's merge code, which is not under src/. -/
def planBins (shards : List Shard) (targetSize : Int) : List (List Shard) :=
  (shards.foldl
    (fun acc s =>
      if targetSize ≤ s.size then acc ++ [([s], s.size)]
      else addToBins targetSize s acc)
    []).map Prod.fst

/-- Total byte size of a bin. -/
def binSize (bin : List Shard) : Int := (bin.map Shard.size).sum

/-- Modelled from the spec: executing one bin of a plan. A bin with a single
input shard is a no-op; a bin with several inputs is replaced by one compound
shard holding their combined size. -/
def execBin : List Shard → List Shard
  | [] => []
  | [s] => [s]
  | s :: rest => [{ path := s.path ++ ".compound", size := binSize (s :: rest) }]

/-- Modelled from the spec: `doMerge` (defined in the repository's merge code,
not under src/) computes the plan for the directory's shards and the target
size, reports that plan, and executes it unless `simulate` is set; with
`simulate` set the directory is returned unchanged while the reported plan is
the one real execution would have used. -/
def doMergeModel (shards : List Shard) (targetSize : Int) (simulate : Bool) :
    List Shard × List (List Shard) :=
  let plan := planBins shards targetSize
  if simulate then (shards, plan) else ((plan.map execBin).flatten, plan)

/-- A branch name paired with the commit it points to. -/
structure Branch where
  name : String
  commit : String
deriving DecidableEq, Repr

/-- Modelled from the spec: a queue entry's fields visible to the listing —
`enqueuedAt`, set on first insertion only, and the mutable desired branches. -/
structure QueueEntryM where
  enqueuedAt : Nat
  desiredBranches : List Branch
deriving DecidableEq, Repr

/-- Modelled from the spec: the per-repository state the queue listing reads —
name, id, the outstanding queue entry when one exists, and the branches
indexed by the most recent indexing job. -/
structure RepoState where
  name : String
  id : Nat
  entry : Option QueueEntryM
  indexedBranches : List Branch
deriving DecidableEq, Repr

/-- The `Branches` column: comma-separated `name@commit` pairs. -/
def branchesField (bs : List Branch) : String :=
  String.intercalate "," (bs.map (fun b => b.name ++ "@" ++ b.commit))

/-- Rendering of an age (elapsed time since `enqueuedAt`) in the `Age` column. -/
def ageField (elapsed : Nat) : String := toString elapsed ++ "s"

/-- One row of the queue listing. -/
structure QueueRow where
  position : Nat
  name : String
  id : Nat
  isOnQueue : Bool
  age : String
  branches : String
deriving DecidableEq, Repr

/-- Modelled from the spec: the row the queue listing prints for the repository
at a given zero-indexed position: `IsOnQueue` is whether an outstanding entry
exists, `Age` is the elapsed time since the entry was first enqueued (or `-`
when there is no outstanding job), and `Branches` is the entry's desired
branches when on queue, else the branches of the most recent indexing job.
The HTTP handler that renders this listing lives in the repository's server
code, which is not under src/; the long help text of `debug queue` in debug.go
documents exactly these columns. -/
def queueRow (now : Nat) (pos : Nat) (r : RepoState) : QueueRow :=
  { position := pos
    name := r.name
    id := r.id
    isOnQueue := r.entry.isSome
    age :=
      match r.entry with
      | some e => ageField (now - e.enqueuedAt)
      | none => "-"
    branches :=
      match r.entry with
      | some e => branchesField e.desiredBranches
      | none => branchesField r.indexedBranches }

/-- Rows for a list of repositories starting at a given position. -/
def queueListingAux (now : Nat) (pos : Nat) : List RepoState → List QueueRow
  | [] => []
  | r :: rs => queueRow now pos r :: queueListingAux now (pos + 1) rs

/-- Modelled from the spec: the queue listing over the repositories taken in
the queue's current priority ordering (the order repeated `Dequeue` calls
would drain), assigning zero-indexed positions. -/
def queueListing (now : Nat) (repos : List RepoState) : List QueueRow :=
  queueListingAux now 0 repos

/-- Modelled from the spec: `Enqueue` as seen by one repository — an upsert
that sets `enqueuedAt` only on first insertion and replaces the desired
branches on later calls without touching `enqueuedAt`. -/
def enqueueRepo (now : Nat) (bs : List Branch) (r : RepoState) : RepoState :=
  match r.entry with
  | some e => { r with entry := some { e with desiredBranches := bs } }
  | none => { r with entry := some { enqueuedAt := now, desiredBranches := bs } }

/-- Tags for the seven fixed handlers built by `debugIndex`, `debugList`,
`debugListIndexed`, `debugMerge`, `debugMeta`, `debugTrigrams`, `debugQueue`. -/
inductive DebugHandler where
  | hIndex
  | hList
  | hListIndexed
  | hMerge
  | hMeta
  | hTrigrams
  | hQueue
deriving DecidableEq, Repr

/-- One entry of the debug command's subcommand table: the subcommand name,
its handler, and the name of the flag set it registers (`none` when the
source sets no `FlagSet`, in which case the ffcli library creates one named
after the command at parse time). -/
structure DebugSubcommand where
  name : String
  handler : DebugHandler
  flagSetName : Option String
deriving DecidableEq, Repr

/-- Embedding of the `Subcommands` list built by `debugCmd` (debug.go), in
source order. `debugMeta` and `debugTrigrams` set no flag set of their own;
the others register one named after the subcommand. -/
def debugSubcommands : List DebugSubcommand :=
  [{ name := "index", handler := DebugHandler.hIndex, flagSetName := some "debug index" },
   { name := "list", handler := DebugHandler.hList, flagSetName := some "debug list" },
   { name := "list-indexed", handler := DebugHandler.hListIndexed,
     flagSetName := some "debug list-indexed" },
   { name := "merge", handler := DebugHandler.hMerge, flagSetName := some "debug merge" },
   { name := "meta", handler := DebugHandler.hMeta, flagSetName := none },
   { name := "trigrams", handler := DebugHandler.hTrigrams, flagSetName := none },
   { name := "queue", handler := DebugHandler.hQueue, flagSetName := some "debug queue" }]

/-- The flag set a subcommand ends up with: its own when it registered one,
else the one the ffcli library creates under the command's name. -/
def effectiveFlagSetName (c : DebugSubcommand) : String := c.flagSetName.getD c.name

/-- An HTTP response, abstracted to its body. -/
structure HttpResponse where
  body : String
deriving DecidableEq, Repr

/-- Oracle for `http.DefaultClient.Do`: maps a method and URL to a response or
a transport error. -/
structure HttpClient where
  send : String → String → Except GoError HttpResponse

/-- The URL string `fmt.Sprintf("http://%s:%d/debug/queue", *hostname, *port)`
built by the `debug queue` subcommand. -/
def debugQueueURL (hostname : String) (port : Nat) : String :=
  "http://" ++ hostname ++ ":" ++ toString port ++ "/debug/queue"

/-- Model of `net/url.Parse` from the Go standard library (external to the
repository), restricted to what the embedded code needs: parsing fails on
URLs containing ASCII control characters or spaces and otherwise returns the
URL unchanged. -/
def goURLParse (s : String) : Except GoError String :=
  if s.data.all (fun c => 32 < c.toNat) then Except.ok s
  else Except.error (GoError.msg ("parsing URL: " ++ s))

/-- Embedding of the `Exec` closure of `debugQueue` (debug.go): build the
`/debug/queue` URL for the configured hostname and port, parse it, issue one
GET request for it, and copy the response body verbatim to stdout; each
failure is returned as an error. -/
def debugQueueExec (client : HttpClient) (hostname : String) (port : Nat)
    (args : List String) : List Effect × Option GoError :=
  let raw := debugQueueURL hostname port
  match goURLParse raw with
  | Except.error e => ([], some e)
  | Except.ok address =>
    match client.send "GET" address with
    | Except.error e => ([Effect.httpRequest "GET" address], some e)
    | Except.ok resp =>
      ([Effect.httpRequest "GET" address, Effect.writeStdout resp.body], none)

/-- Whether an effect is an HTTP request. -/
def isHttpRequest : Effect → Bool
  | Effect.httpRequest _ _ => true
  | _ => false

/-- Whether an effect mutates state the spec cares about: forcing an index,
running a merge, writing the debug logger, or issuing a non-GET HTTP request.
Reading shard files and copying bytes to stdout are read-only. -/
def isMutatingEffect : Effect → Bool
  | Effect.forceIndex _ => true
  | Effect.doMerge _ _ _ => true
  | Effect.setDebugLogger => true
  | Effect.httpRequest m _ => !(m == "GET")
  | _ => false

/-- A server oracle whose construction succeeds and whose `forceIndex` reports
success with a fixed message. -/
def oracle0 : ServerOracle :=
  { newServer := Except.ok ()
    forceIndex := fun _ => ("ok", none) }

/-- A server oracle whose `forceIndex` returns both a message and an error. -/
def oracleErr : ServerOracle :=
  { newServer := Except.ok ()
    forceIndex := fun _ => ("forced", some (GoError.msg "index failed")) }

/-- An HTTP client returning a fixed body for every request. -/
def client0 : HttpClient :=
  { send := fun _ _ => Except.ok { body := "queue listing" } }

/-- A repository with an outstanding queue entry. -/
def repoA : RepoState :=
  { name := "repoA"
    id := 1
    entry := some { enqueuedAt := 4, desiredBranches := [{ name := "main", commit := "c1" }] }
    indexedBranches := [{ name := "main", commit := "c0" }] }

/-- A repository with no outstanding queue entry. -/
def repoB : RepoState :=
  { name := "repoB"
    id := 2
    entry := none
    indexedBranches := [{ name := "main", commit := "c0" }] }

theorem queueListingAux_get (now : Nat) (rs : List RepoState) (p i : Nat) :
    (queueListingAux now p rs).get? i = (rs.get? i).map (fun r => queueRow now (p + i) r) := by
  induction rs generalizing p i with
  | nil => simp [queueListingAux]
  | cons head tail ih =>
    cases i with
    | zero => simp [queueListingAux]
    | succ j =>
      have e : p + 1 + j = p + (j + 1) := by omega
      simp only [queueListingAux, List.get?]
      rw [ih (p + 1) j, e]

theorem int64wrap_eq_self (i : Int) (h1 : -(2 ^ 63) ≤ i) (h2 : i < 2 ^ 63) :
    int64wrap i = i := by
  have h64 : (2 : Int) ^ 64 = 18446744073709551616 := by norm_num
  have h63 : (2 : Int) ^ 63 = 9223372036854775808 := by norm_num
  simp only [int64wrap, h63, h64] at *
  omega

theorem mergeCallOf_exec (fl : MergeFlags) (res : String → Int → Bool → Option GoError)
    (args : List String) :
    mergeCallOf (debugMergeExec fl res args).1 =
      some (fl.index, int64wrap (fl.targetSize * 1048576), fl.simulate) := by
  cases hd : fl.dbg <;> simp [debugMergeExec, mergeCallOf, hd]

/-- C1: the debug merge subcommand's usage (`merge [flags] <dir>`) and the
claim say the positional target directory is where the merge runs, but the
`Exec` closure never reads its positional arguments: the directory handed to
`doMerge` is always the `-index` flag value, so an invocation with positional
directory "/srv/shards" and index flag "/data/index" merges "/data/index". -/
theorem c1_merge_ignores_positional_dir :
    (∀ (fl : MergeFlags) (res : String → Int → Bool → Option GoError) (args : List String),
       debugMergeExec fl res args = debugMergeExec fl res []) ∧
    mergeCallOf (debugMergeExec
        { simulate := false, targetSize := 2000, index := "/data/index", dbg := false }
        (fun _ _ _ => none) ["/srv/shards"]).1
      = some ("/data/index", 2097152000, false) ∧
    ("/data/index" : String) ≠ "/srv/shards" := by
  refine ⟨fun fl res args => rfl, ?_, by decide⟩
  rw [mergeCallOf_exec]
  norm_num [int64wrap]

/-- C2: merging is simulated exactly when the `-simulate` flag is set: the
flag defaults to false, the `Exec` closure passes it unchanged as the
simulate argument of `doMerge`, and `doMerge` (modelled from the spec) with
simulate set returns the shard directory unchanged while reporting the very
plan non-simulated execution would have used. -/
theorem c2_simulate_flag_passthrough_and_dry_run_noop :
    (∀ (srcTargetSize : Option Int) (dataDir : Option String) (bdd : String) (lvl : Bool),
       (defaultMergeFlags srcTargetSize dataDir bdd lvl).simulate = false) ∧
    (∀ (fl : MergeFlags) (res : String → Int → Bool → Option GoError) (args : List String),
       (mergeCallOf (debugMergeExec fl res args).1).map (fun c => c.2.2) = some fl.simulate) ∧
    (∀ (shards : List Shard) (targetSize : Int),
       (doMergeModel shards targetSize true).1 = shards ∧
       (doMergeModel shards targetSize true).2 = (doMergeModel shards targetSize false).2) := by
  refine ⟨fun _ _ _ _ => rfl, ?_, fun shards ts => ⟨rfl, rfl⟩⟩
  intro fl res args
  rw [mergeCallOf_exec]
  rfl

/-- C3 (amended): the target size handed to `doMerge` equals the value of the
`merge_target_size` flag (in MiB, defaulting to 2000 or to the
`SRC_TARGET_SIZE` environment value) multiplied by 1024*1024 and reduced into
the int64 range by two's-complement wrap-around; it equals the exact product
whenever that product fits in int64, in particular for the default of 2000
MiB. -/
theorem c3_target_size_bytes_modulo_int64 :
    (∀ (fl : MergeFlags) (res : String → Int → Bool → Option GoError) (args : List String),
       (mergeCallOf (debugMergeExec fl res args).1).map (fun c => c.2.1)
         = some (int64wrap (fl.targetSize * 1048576))) ∧
    defaultTargetSizeMiB none = 2000 ∧
    (∀ v : Int, defaultTargetSizeMiB (some v) = v) ∧
    (∀ (fl : MergeFlags) (res : String → Int → Bool → Option GoError) (args : List String),
       -(2 ^ 63) ≤ fl.targetSize * 1048576 → fl.targetSize * 1048576 < 2 ^ 63 →
       (mergeCallOf (debugMergeExec fl res args).1).map (fun c => c.2.1)
         = some (fl.targetSize * 1048576)) := by
  refine ⟨?_, rfl, fun v => rfl, ?_⟩
  · intro fl res args
    rw [mergeCallOf_exec]
    rfl
  · intro fl res args h1 h2
    rw [mergeCallOf_exec]
    simp [int64wrap_eq_self _ h1 h2]

/-- C3 witness: with the default 2000 MiB target the size handed to `doMerge`
is exactly 2000 * 1024 * 1024 = 2097152000 bytes. -/
theorem c3_target_size_default_witness :
    (mergeCallOf (debugMergeExec
        { simulate := false, targetSize := 2000, index := "d", dbg := false }
        (fun _ _ _ => none) []).1).map (fun c => c.2.1) = some 2097152000 := by
  have h := c3_target_size_bytes_modulo_int64.2.2.2
      { simulate := false, targetSize := 2000, index := "d", dbg := false }
      (fun _ _ _ => none) [] (by norm_num) (by norm_num)
  have e : (2000 : Int) * 1048576 = 2097152000 := by norm_num
  rw [e] at h
  exact h

/-- C3 counterexample: the multiplication `*targetSize*1024*1024` is Go int64
arithmetic and wraps: with `merge_target_size` set to 2^50 MiB the code hands
`doMerge` a target size of 0 bytes, not 2^50 * 1024 * 1024. -/
theorem c3_target_size_overflow_counterexample :
    (mergeCallOf (debugMergeExec
        { simulate := false, targetSize := 2 ^ 50, index := "d", dbg := false }
        (fun _ _ _ => none) []).1).map (fun c => c.2.1) = some 0 ∧
    (0 : Int) ≠ 2 ^ 50 * 1048576 := by
  constructor
  · rw [mergeCallOf_exec]
    norm_num [int64wrap]
  · norm_num

/-- C4: the debug subcommands index, trigrams and meta with an empty
positional-argument list return their "missing" error synchronously with an
empty effect trace: no server is constructed, no indexing is forced, no shard
file is read. -/
theorem c4_empty_args_rejected_synchronously (o : ServerOracle)
    (shardStats metaData : String → Option GoError) :
    debugIndexExec o [] = ([], some (GoError.msg "missing repository ID")) ∧
    debugTrigramsExec shardStats [] = ([], some (GoError.msg "missing path to shard")) ∧
    debugMetaExec metaData [] = ([], some (GoError.msg "missing path to shard")) :=
  ⟨rfl, rfl, rfl⟩

/-- C5: when the repository-ID argument of debug index is malformed
(`strconv.Atoi` fails), the command returns an error synchronously and
`forceIndex` is never called; when server construction succeeds the returned
error is exactly the parse error. -/
theorem c5_malformed_repo_id_rejected (o : ServerOracle) (a : String) (args : List String)
    (e : GoError) (h : goAtoi a = Except.error e) :
    (debugIndexExec o (a :: args)).2.isSome = true ∧
    (∀ id, Effect.forceIndex id ∉ (debugIndexExec o (a :: args)).1) ∧
    (o.newServer = Except.ok () → debugIndexExec o (a :: args) = ([Effect.newServer], some e)) := by
  cases hs : o.newServer with
  | error e2 => refine ⟨?_, ?_, ?_⟩ <;> simp [debugIndexExec, hs, h]
  | ok u =>
    cases u
    refine ⟨?_, ?_, ?_⟩ <;> simp [debugIndexExec, hs, h]

/-- C5 witness: the non-numeric repository ID "abc" is rejected and no
`forceIndex` effect occurs. -/
theorem c5_malformed_repo_id_witness :
    (debugIndexExec oracle0 ["abc"]).2.isSome = true ∧
    Effect.forceIndex 0 ∉ (debugIndexExec oracle0 ["abc"]).1 := by
  have h := c5_malformed_repo_id_rejected oracle0 "abc" []
      (GoError.msg "invalid syntax: abc") rfl
  exact ⟨h.1, h.2.1 0⟩

/-- C6: in the queue listing over the repositories in the queue's current
ordering, every row at index i has `Position` i (zero-indexed rank), the
repository's `Name` and `ID`, `IsOnQueue` true exactly when an outstanding
queue entry exists, `Age` rendered from the time elapsed since the entry was
first enqueued (and `-` when there is no outstanding job), and `Branches` the
comma-separated name@commit rendering of the entry's desired branches when on
queue, else of the branches of the most recent indexing job; moreover a later
`Enqueue` for the same repository replaces the desired branches without
touching `enqueuedAt`, leaving `Age` unchanged. -/
theorem c6_queue_listing_columns (now i : Nat) (repos : List RepoState) (r : RepoState)
    (h : repos.get? i = some r) :
    (queueListing now repos).get? i = some (queueRow now i r) ∧
    (queueRow now i r).position = i ∧
    (queueRow now i r).name = r.name ∧
    (queueRow now i r).id = r.id ∧
    (queueRow now i r).isOnQueue = r.entry.isSome ∧
    (r.entry = none →
       (queueRow now i r).age = "-" ∧
       (queueRow now i r).branches = branchesField r.indexedBranches) ∧
    (∀ e, r.entry = some e →
       (queueRow now i r).age = ageField (now - e.enqueuedAt) ∧
       (queueRow now i r).branches = branchesField e.desiredBranches) ∧
    (∀ later bs e, r.entry = some e →
       (queueRow now i (enqueueRepo later bs r)).age = (queueRow now i r).age ∧
       (enqueueRepo later bs r).entry =
         some { enqueuedAt := e.enqueuedAt, desiredBranches := bs }) := by
  refine ⟨?_, rfl, rfl, rfl, rfl, ?_, ?_, ?_⟩
  · rw [queueListing, queueListingAux_get, h]
    simp
  · intro he
    simp [queueRow, he]
  · intro e he
    simp [queueRow, he]
  · intro later bs e he
    constructor
    · simp [enqueueRepo, he, queueRow]
    · simp [enqueueRepo, he]

/-- C6 witness: in a two-repository listing the repository at position 1 has
no outstanding job, so its row shows `-` for Age and the branches of its most
recent indexing job. -/
theorem c6_queue_listing_witness :
    (queueListing 10 [repoA, repoB]).get? 1 = some (queueRow 10 1 repoB) ∧
    (queueRow 10 1 repoB).age = "-" ∧
    (queueRow 10 1 repoB).branches = branchesField repoB.indexedBranches := by
  have h := c6_queue_listing_columns 10 1 [repoA, repoB] repoB rfl
  exact ⟨h.1, (h.2.2.2.2.2.1 rfl).1, (h.2.2.2.2.2.1 rfl).2⟩

/-- C7: the debug command's subcommand table is static: its list of
subcommands consists exactly of index, list, list-indexed, merge, meta,
trigrams and queue in that order, each name occurs once, each is mapped to a
distinct fixed handler, and each ends up with its own flag set (its
registered one, or the one the ffcli library creates under the command
name). -/
theorem c7_static_subcommand_table :
    debugSubcommands.map DebugSubcommand.name =
      ["index", "list", "list-indexed", "merge", "meta", "trigrams", "queue"] ∧
    (debugSubcommands.map DebugSubcommand.name).Nodup ∧
    (debugSubcommands.map DebugSubcommand.handler).Nodup ∧
    (debugSubcommands.map effectiveFlagSetName).Nodup := by
  refine ⟨rfl, ?_, ?_, ?_⟩ <;> decide

/-- C8: the debug queue subcommand is read-only introspection: every HTTP
request in its trace is a GET for the /debug/queue URL of the configured host
and port, no effect in its trace mutates any state, when the URL parses it
issues exactly one HTTP request, and on a successful response it copies the
response body verbatim to stdout and returns no error. -/
theorem c8_queue_readonly_single_get (client : HttpClient) (hostname : String) (port : Nat)
    (args : List String) :
    (∀ m u, Effect.httpRequest m u ∈ (debugQueueExec client hostname port args).1 →
       m = "GET" ∧ u = debugQueueURL hostname port) ∧
    (∀ ef, ef ∈ (debugQueueExec client hostname port args).1 → isMutatingEffect ef = false) ∧
    (goURLParse (debugQueueURL hostname port) = Except.ok (debugQueueURL hostname port) →
       ((debugQueueExec client hostname port args).1.filter isHttpRequest).length = 1) ∧
    (∀ resp, goURLParse (debugQueueURL hostname port) = Except.ok (debugQueueURL hostname port) →
       client.send "GET" (debugQueueURL hostname port) = Except.ok resp →
       debugQueueExec client hostname port args =
         ([Effect.httpRequest "GET" (debugQueueURL hostname port),
           Effect.writeStdout resp.body], none)) := by
  by_cases hc : (debugQueueURL hostname port).data.all (fun c => 32 < c.toNat)
  · cases hsend : client.send "GET" (debugQueueURL hostname port) with
    | error e =>
      refine ⟨?_, ?_, ?_, ?_⟩
      · intro m u hm
        simp [debugQueueExec, goURLParse, hc, hsend] at hm
        exact hm
      · intro ef hef
        simp [debugQueueExec, goURLParse, hc, hsend] at hef
        simp [hef, isMutatingEffect]
      · intro _
        simp [debugQueueExec, goURLParse, hc, hsend, isHttpRequest]
      · intro resp _ hresp
        simp at hresp
    | ok resp =>
      refine ⟨?_, ?_, ?_, ?_⟩
      · intro m u hm
        simp [debugQueueExec, goURLParse, hc, hsend] at hm
        exact hm
      · intro ef hef
        simp [debugQueueExec, goURLParse, hc, hsend] at hef
        rcases hef with hef | hef <;> simp [hef, isMutatingEffect]
      · intro _
        simp [debugQueueExec, goURLParse, hc, hsend, isHttpRequest]
      · intro resp2 _ hresp
        injection hresp with hb
        subst hb
        simp [debugQueueExec, goURLParse, hc, hsend]
  · refine ⟨?_, ?_, ?_, ?_⟩
    · intro m u hm
      simp [debugQueueExec, goURLParse, hc] at hm
    · intro ef hef
      simp [debugQueueExec, goURLParse, hc] at hef
    · intro hp
      simp [goURLParse, hc] at hp
    · intro resp hp hresp
      simp [goURLParse, hc] at hp

/-- C8 witness: against a client answering with body "queue listing", the
trace of `debug queue -hostname localhost -port 6072` is exactly one GET for
http://localhost:6072/debug/queue followed by the verbatim copy of the body
to stdout, with no error. -/
theorem c8_queue_witness :
    debugQueueExec client0 "localhost" 6072 [] =
      ([Effect.httpRequest "GET" "http://localhost:6072/debug/queue",
        Effect.writeStdout "queue listing"], none) := by
  have h := (c8_queue_readonly_single_get client0 "localhost" 6072 []).2.2.2
      { body := "queue listing" } rfl rfl
  exact h

/-- C9: an argument of debug index that parses as a negative integer n is not
rejected: the parsed int is converted to uint32 with wrap-around, so
`forceIndex` is called with the repository id n mod 2^32, and the command's
result is whatever `forceIndex` returns. -/
theorem c9_negative_id_wraps_uint32 (o : ServerOracle) (a : String) (args : List String)
    (n : Int) (hp : goAtoi a = Except.ok n) (hn : n < 0)
    (hs : o.newServer = Except.ok ()) :
    Effect.forceIndex ((n % 2 ^ 32).toNat) ∈ (debugIndexExec o (a :: args)).1 ∧
    (debugIndexExec o (a :: args)).2 = (o.forceIndex ((n % 2 ^ 32).toNat)).2 := by
  simp [debugIndexExec, hs, hp, intToUInt32]

/-- C9 witness: "-1" is accepted and `forceIndex` is called with repository
id 4294967295 = 2^32 - 1. -/
theorem c9_negative_id_witness :
    Effect.forceIndex 4294967295 ∈ (debugIndexExec oracle0 ["-1"]).1 := by
  have h := c9_negative_id_wraps_uint32 oracle0 "-1" [] (-1) rfl (by norm_num) rfl
  have e : ((-1 : Int) % 2 ^ 32).toNat = 4294967295 := by decide
  rw [e] at h
  exact h.1

/-- C10: whenever debug index reaches `forceIndex`, the message `forceIndex`
returns is logged unconditionally before the error is considered: the trace
always ends with the log of the message, and the command's result is the
error `forceIndex` returned (nil or not). -/
theorem c10_force_index_message_logged (o : ServerOracle) (a : String) (args : List String)
    (n : Int) (hp : goAtoi a = Except.ok n) (hs : o.newServer = Except.ok ()) :
    debugIndexExec o (a :: args) =
      ([Effect.newServer, Effect.forceIndex (intToUInt32 n),
        Effect.logLine (o.forceIndex (intToUInt32 n)).1],
       (o.forceIndex (intToUInt32 n)).2) := by
  simp [debugIndexExec, hs, hp]

/-- C10 witness: with a `forceIndex` that returns message "forced" together
with a non-nil error, the message is still logged and the error is returned. -/
theorem c10_force_index_witness :
    debugIndexExec oracleErr ["7"] =
      ([Effect.newServer, Effect.forceIndex 7, Effect.logLine "forced"],
       some (GoError.msg "index failed")) := by
  have h := c10_force_index_message_logged oracleErr "7" [] 7 rfl rfl
  have e : intToUInt32 7 = 7 := by decide
  rw [e] at h
  exact h

end ZoektDebug
